import Mathlib

set_option maxHeartbeats 1000000

/-!
Shallow embedding of the core of the YAIB repository:
`icu_benchmarks/data/loader.py` (class `RICUDataset`) and
`icu_benchmarks/hyperparameter_tuning.py` (functions `hyperparameters_to_tune`,
`bind_params`, `choose_and_bind_hyperparameters`).

Tables are embedded as Lean lists of rows in table order.  Feature values are
rationals; label cells carry an explicit NaN sentinel because the loader uses
NaN only as an "unlabeled" marker tested by `np.isnan` (no floating-point
arithmetic is ever performed on it).
-/

/-- A label cell of the outcome table: a real value or the NaN sentinel that
the loader uses for "unlabeled" positions. -/
inductive Lbl where
  | nan : Lbl
  | val (q : ℚ) : Lbl
deriving DecidableEq, Repr

/-- `np.isnan` on a label cell. -/
def Lbl.isNan : Lbl → Bool
  | .nan => true
  | .val _ => false

/-- The sample returned by `RICUDataset.__getitem__`: the padded window,
the aligned label vector and the padding mask. -/
structure Sample where
  data : List (List ℚ)
  labels : List Lbl
  mask : List Bool
deriving DecidableEq, Repr

/-- The raw tables of one split as handed to the dataset constructor:
static rows `(group, static features)`, dynamic rows
`(group, sequence value, measurement features)` and outcome rows
`(group, label)`, each list in table order. -/
structure SplitData where
  static : List (String × List ℚ)
  dynamic : List (String × ℚ × List ℚ)
  outcome : List (String × Lbl)

/-- State stored by `RICUDataset.__init__`: the group column of the static
table, the group-indexed dynamic table (sequence column dropped, static
features joined when requested) and the group-indexed outcome table, plus the
three counters the constructor precomputes. -/
structure RICUDataset where
  static_df : List String
  dyn_df : List (String × List ℚ)
  outc_df : List (String × Lbl)
  num_stays : Nat
  num_measurements : Nat
  maxlen : Nat
deriving DecidableEq, Repr

/-- Number of dynamic rows of one group: one entry of
`dyn_df.groupby(GROUP).size()`. -/
def groupSize (dyn : List (String × List ℚ)) (g : String) : Nat :=
  (dyn.filter (fun r => r.1 == g)).length

/-- `dyn_df.groupby(GROUP).size().max()`: the largest per-group row count.
Taking the maximum over the group of every row visits exactly the groups
present in the table. -/
def maxGroupSize (dyn : List (String × List ℚ)) : Nat :=
  (dyn.map (fun r => groupSize dyn r.1)).foldr max 0

/-- `RICUDataset.__init__` (loader.py lines 20-33): index the outcome and
dynamic tables by group, drop the sequence column, optionally left-join the
static features by group key (the static index is unique, one row per entity),
and precompute `num_stays`, `num_measurements` and `maxlen`. -/
def RICUDataset.init (data : SplitData) (use_static : Bool) : RICUDataset :=
  let dynBase := data.dynamic.map (fun r => (r.1, r.2.2))
  let dyn_df := if use_static then
      dynBase.map (fun r =>
        (r.1, r.2 ++ (((data.static.find? (fun s => s.1 == r.1)).map Prod.snd).getD [])))
    else dynBase
  { static_df := data.static.map Prod.fst
    dyn_df := dyn_df
    outc_df := data.outcome
    num_stays := data.static.length
    num_measurements := dyn_df.length
    maxlen := maxGroupSize dyn_df }

/-- `RICUDataset.__len__`. -/
def RICUDataset.length (d : RICUDataset) : Nat := d.num_stays

/-- The in-place update `labels[not_labeled] = -1; pad_mask[not_labeled] = 0`
of loader.py lines 76-79, acting on the mask: every position whose label is
the NaN sentinel is forced to `0`; mask positions beyond the label vector are
untouched (the indices come from `np.argwhere(np.isnan(labels))`, so they
never reach beyond `labels`). -/
def maskNan : List Lbl → List Bool → List Bool
  | [], ms => ms
  | _ :: _, [] => []
  | l :: ls, m :: ms => (if l.isNan then false else m) :: maskNan ls ms

/-- Body of `RICUDataset.__getitem__` (loader.py lines 54-85) once the stay's
window rows and outcome labels have been sliced out: back-fill a single label
to the window length with NaN sentinels, pad window, labels and mask to
`maxlen` with `pad_value = 0`, then rewrite NaN labels to `-1` and zero their
mask entries. -/
def buildSample (maxlen : Nat) (window : List (List ℚ)) (labels0 : List Lbl) : Sample :=
  let labels1 := if labels0.length = 1 then
      List.replicate (window.length - 1) Lbl.nan ++ labels0
    else labels0
  let length_diff : ℤ := (maxlen : ℤ) - window.length
  let ncols := (window.head?.map List.length).getD 0
  let window2 := if 0 < length_diff then
      window ++ List.replicate length_diff.toNat (List.replicate ncols 0)
    else window
  let labels2 := if 0 < length_diff then
      labels1 ++ List.replicate length_diff.toNat (Lbl.val 0)
    else labels1
  let mask1 : List Bool := if 0 < length_diff then
      List.replicate window.length true ++ List.replicate length_diff.toNat false
    else List.replicate window.length true
  { data := window2
    labels := labels2.map (fun l => if l.isNan then Lbl.val (-1) else l)
    mask := maskNan labels2 mask1 }

/-- Slice the dynamic and outcome tables for one stay
(`self.dyn_df.loc[stay_id:stay_id]`, `self.outc_df.loc[stay_id:stay_id]`;
rows of one group are contiguous, so the label slice is the set of rows of
that group in table order) and build the sample. -/
def RICUDataset.getItemFor (d : RICUDataset) (stay_id : String) : Sample :=
  buildSample d.maxlen
    ((d.dyn_df.filter (fun r => r.1 == stay_id)).map Prod.snd)
    ((d.outc_df.filter (fun r => r.1 == stay_id)).map Prod.snd)

/-- `RICUDataset.__getitem__`: positional lookup of the group key in the
static table (`self.static_df.iloc[idx][GROUP]`), then the windowing body.
Out-of-range indices raise `IndexError`, embedded as `none`. -/
def RICUDataset.getItem (d : RICUDataset) (idx : Nat) : Option Sample :=
  match d.static_df[idx]? with
  | none => none
  | some stay_id => some (d.getItemFor stay_id)

/-- State-passing form of `__getitem__`.  The array `labels` of loader.py
line 59 is `outc_df.loc[stay_id:stay_id]["label"].to_numpy(dtype=float)`: on
a float64 label column this is a no-copy view of the outcome table's buffer.
`labels` is rebound to a fresh array only by the back-fill concatenate of
line 63 (when the slice has exactly one label) or the padding concatenate of
line 73 (when `length_diff > 0`).  If neither rebinds and the slice contains
a NaN, the write `labels[not_labeled] = -1` of line 78 goes through the view
into `outc_df`, turning that stay's NaN labels into `-1` in the table.
`pad_mask` (np.ones) and the returned arrays (`astype` copies) are fresh, and
`window` is never written, so no other state changes. -/
def RICUDataset.getItemS (d : RICUDataset) (idx : Nat) : Option (Sample × RICUDataset) :=
  match d.static_df[idx]? with
  | none => none
  | some stay_id =>
    let labels0 := (d.outc_df.filter (fun r => r.1 == stay_id)).map Prod.snd
    let length_diff : ℤ := (d.maxlen : ℤ) - (groupSize d.dyn_df stay_id : ℤ)
    let outc2 := if labels0.length ≠ 1 ∧ ¬ 0 < length_diff ∧ labels0.any Lbl.isNan then
        d.outc_df.map (fun r =>
          if r.1 == stay_id && r.2.isNan then (r.1, Lbl.val (-1)) else r)
      else d.outc_df
    some (d.getItemFor stay_id, { d with outc_df := outc2 })

/-- Key deduplication in order of first appearance: the index of
`groupby(level=GROUP, sort=False)`. -/
def dedupKeys (l : List String) : List String :=
  l.foldl (fun acc g => if g ∈ acc then acc else acc ++ [g]) []

/-- `dyn_df.groupby(level=GROUP, sort=False).last()`: one row per distinct
group, groups in order of first appearance, each carrying the last row of its
group (feature cells are never NaN in this embedding, so `last()` is the last
row of the group). -/
def groupbyLast (dyn : List (String × List ℚ)) : List (String × List ℚ) :=
  (dedupKeys (dyn.map Prod.fst)).map (fun g =>
    (g, ((dyn.filter (fun r => r.1 == g)).map Prod.snd).getLastD []))

/-- `RICUDataset.get_data_and_labels` (loader.py lines 96-111): all labels of
the outcome table; the dynamic table collapsed to the last row of each group
(order preserved) when there is exactly one label per stay, the full dynamic
table otherwise; indices are dropped by `.to_numpy()`. -/
def RICUDataset.get_data_and_labels (d : RICUDataset) : List (List ℚ) × List Lbl :=
  let labels := d.outc_df.map Prod.snd
  let rep := if labels.length = d.num_stays then groupbyLast d.dyn_df else d.dyn_df
  (rep.map Prod.snd, labels)

/-!
Embedding of `icu_benchmarks/hyperparameter_tuning.py`.

The gin configuration store is embedded as the text-membership test of the
initial configuration (`inText`) together with the ordered list of
`gin.bind_parameter` calls made so far.  `skopt.gp_minimize` is an external
collaborator; it is modelled by its contract: it evaluates the objective once
per remaining call of the budget and reports a best point `res.x`.  Proposed
points, objective losses and `res.x` are oracle parameters.  Observable side
effects (temporary-directory lifecycle, training invocations, checkpoint
writes, parameter binds) are recorded in an event trace.
-/

/-- A primitive gin value (int, float or string). -/
inductive Prim where
  | int (n : ℤ) : Prim
  | rat (q : ℚ) : Prim
  | str (s : String) : Prim
deriving DecidableEq, Repr

/-- A candidate hyperparameter value: a plain scalar, a python list, or a
python tuple.  `isinstance(values, (list, tuple))` distinguishes the tunable
collections from immediately-bound scalars. -/
inductive GinVal where
  | prim (p : Prim) : GinVal
  | listv (elems : List Prim) : GinVal
  | tuplev (elems : List Prim) : GinVal
deriving DecidableEq, Repr

/-- `isinstance(values, (list, tuple))`. -/
def GinVal.isSeq : GinVal → Bool
  | .listv _ => true
  | .tuplev _ => true
  | .prim _ => false

/-- The gin configuration store: `inText name` says whether the assignment
`name=` already occurs in the initial configuration text
(`gin.config_str()` with spaces removed), and `bindings` records the
`gin.bind_parameter` calls made since, in order. -/
structure GinConfig where
  inText : String → Bool
  bindings : List (String × GinVal)

/-- `gin.bind_parameter(name, v)`: appends one binding (later binds for the
same name override earlier ones when read). -/
def bindParameter (cfg : GinConfig) (name : String) (v : GinVal) : GinConfig :=
  { cfg with bindings := cfg.bindings ++ [(name, v)] }

/-- The check of hyperparameter_tuning.py line 35: the assignment `name=`
occurs in the current `gin.config_str()`, i.e. it was in the initial
configuration text, or some `bind_parameter` call has since added the line
`name = value` to it. -/
def GinConfig.hasAssignment (cfg : GinConfig) (name : String) : Bool :=
  cfg.inText name || cfg.bindings.any (fun p => p.1 == name)

/-- `hyperparameters_to_tune` (hyperparameter_tuning.py lines 18-43) for one
class: walk the candidate dict in order; skip a candidate whose qualified
name `class.param` is already assigned; bind a non-list, non-tuple value
immediately; collect the remaining candidates as the search space. -/
def hyperparameters_to_tune (cfg : GinConfig) (classToTune : String) :
    List (String × GinVal) → GinConfig × List (String × GinVal)
  | [] => (cfg, [])
  | (param, values) :: rest =>
    let name := classToTune ++ "." ++ param
    if cfg.hasAssignment name then
      hyperparameters_to_tune cfg classToTune rest
    else if values.isSeq then
      let out := hyperparameters_to_tune cfg classToTune rest
      (out.1, (name, values) :: out.2)
    else
      hyperparameters_to_tune (bindParameter cfg name values) classToTune rest

/-- `bind_params` (lines 46-55): zip names with values and bind each pair. -/
def bind_params (cfg : GinConfig) (names : List String) (values : List GinVal) : GinConfig :=
  (names.zip values).foldl (fun c p => bindParameter c p.1 p.2) cfg

/-- `dict.update`: keys already present are overwritten in place, new keys
are appended in order. -/
def updateAssoc (base upd : List (String × GinVal)) : List (String × GinVal) :=
  upd.foldl (fun acc kv =>
    if acc.any (fun p => p.1 == kv.1) then
      acc.map (fun p => if p.1 == kv.1 then kv else p)
    else acc ++ [kv]) base

/-- The collection loop of `choose_and_bind_hyperparameters` (lines 109-113):
each scope contributes one `hyperparameters_to_tune` call (a scope is embedded
as the class name and candidate dict that the gin scope resolves to), and the
tunable entries are merged with `dict.update`. -/
def collectHyperparameters (cfg : GinConfig)
    (scopes : List (String × List (String × GinVal))) :
    GinConfig × List (String × GinVal) :=
  scopes.foldl (fun acc sc =>
    let out := hyperparameters_to_tune acc.1 sc.1 sc.2
    (out.1, updateAssoc acc.2 out.2)) (cfg, [])

/-- The persisted tuning checkpoint `x_iters`/`func_vals`. -/
structure Checkpoint where
  x_iters : List (List GinVal)
  func_vals : List ℚ
deriving DecidableEq, Repr

/-- Observable events of one `choose_and_bind_hyperparameters` run. -/
inductive Event where
  | tempDirCreated : Event
  | tempDirRemoved : Event
  | optimizerStarted : Event
  | bindParams (names : List String) (values : List GinVal) : Event
  | trainFolds : Event
  | writeCheckpoint : Event
deriving DecidableEq, Repr

/-- `np.argmin`: index of the first minimal element. -/
def argminIdx : List ℚ → Nat
  | [] => 0
  | [_] => 0
  | x :: y :: rest =>
    let j := argminIdx (y :: rest)
    if x ≤ (y :: rest).getD j 0 then 0 else j + 1

/-- The closure `bind_params_and_train` (lines 141-153): bind the proposed
values; when tuning is disabled return the constant 0 without training,
otherwise invoke `preprocess_and_train_for_folds` for the scalar loss.
Returns the updated config, the objective value and the emitted events. -/
def bind_params_and_train (cfg : GinConfig) (do_tune : Bool) (names : List String)
    (loss : List GinVal → ℚ) (p : List GinVal) : GinConfig × ℚ × List Event :=
  let cfg1 := bind_params cfg names p
  if do_tune then
    (cfg1, loss p, [Event.bindParams names p, Event.trainFolds])
  else
    (cfg1, 0, [Event.bindParams names p])

/-- The evaluation loop inside `gp_minimize`: one objective call per element,
followed by the per-iteration callback `tune_step_callback` (which writes the
checkpoint file) when it is installed, i.e. when `do_tune` is true. -/
def runEvaluations (cfg : GinConfig) (do_tune : Bool) (names : List String)
    (loss : List GinVal → ℚ) (propose : Nat → List GinVal) :
    List Nat → GinConfig × List Event
  | [] => (cfg, [])
  | i :: rest =>
    let step := bind_params_and_train cfg do_tune names loss (propose i)
    let cb := if do_tune then [Event.writeCheckpoint] else []
    let out := runEvaluations step.1 do_tune names loss propose rest
    (out.1, step.2.2 ++ cb ++ out.2)

/-- Modelled from the spec: `skopt.gp_minimize` is an external collaborator
("a sequential Bayesian optimizer, `n_calls` total evaluations"); it calls
the objective once per unit of the call budget and reports its best point
`res.x` (an oracle here, since the surrogate model is outside the repo). -/
def gp_minimize (cfg : GinConfig) (do_tune : Bool) (names : List String)
    (n_calls : ℤ) (loss : List GinVal → ℚ) (propose : Nat → List GinVal)
    (resx : List GinVal) : GinConfig × List GinVal × List Event :=
  let out := runEvaluations cfg do_tune names loss propose (List.range n_calls.toNat)
  (out.1, resx, Event.optimizerStarted :: out.2)

/-- Lines 139-195 after checkpoint handling: the `tempfile.TemporaryDirectory`
context manager opens and closes around the mere definition of
`bind_params_and_train` (its body ends at line 153), so the directory is
removed before `gp_minimize` runs; when tuning is disabled the budget is
forced to a single random draw (`n_initial_points = n_calls = 1`); finally
`res.x` is bound. -/
def afterCheckpoint (cfg : GinConfig) (do_tune : Bool) (names : List String)
    (n_initial_points n_calls : ℤ) (loss : List GinVal → ℚ)
    (propose : Nat → List GinVal) (resx : List GinVal) : GinConfig × List Event :=
  let tempEvs := [Event.tempDirCreated, Event.tempDirRemoved]
  let budget := if do_tune then (n_calls, n_initial_points) else (1, 1)
  let opt := gp_minimize cfg do_tune names budget.1 loss propose resx
  (bind_params opt.1 names opt.2.1,
   tempEvs ++ opt.2.2 ++ [Event.bindParams names opt.2.1])

/-- `choose_and_bind_hyperparameters` (lines 80-195): collect hyperparameters
over the scopes; exit early when tuning is enabled but nothing is tunable;
on a checkpoint path, fail if the file is missing, else subtract the restored
point count from the budget and, if nothing remains, bind the minimum-loss
recorded point and return; otherwise run the optimizer and bind `res.x`. -/
def choose_and_bind_hyperparameters (cfg0 : GinConfig) (do_tune : Bool)
    (scopes : List (String × List (String × GinVal)))
    (checkpoint : Option (Option Checkpoint))
    (n_initial_points n_calls : ℤ) (loss : List GinVal → ℚ)
    (propose : Nat → List GinVal) (resx : List GinVal) :
    Except String (GinConfig × List Event) :=
  let collected := collectHyperparameters cfg0 scopes
  let cfg := collected.1
  let names := collected.2.map Prod.fst
  let bounds := collected.2.map Prod.snd
  if do_tune && bounds.isEmpty then
    .ok (cfg, [])
  else
    match checkpoint with
    | none =>
      .ok (afterCheckpoint cfg do_tune names n_initial_points n_calls loss propose resx)
    | some none =>
      .error "No checkpoint found to restart from."
    | some (some ck) =>
      let n_calls2 := n_calls - ck.x_iters.length
      if n_calls2 ≤ 0 then
        let best := ck.x_iters.getD (argminIdx ck.func_vals) []
        .ok (bind_params cfg names best, [Event.bindParams names best])
      else
        .ok (afterCheckpoint cfg do_tune names n_initial_points n_calls2 loss propose resx)

/-- The event trace of a run (empty when the run raised). -/
def traceOf (r : Except String (GinConfig × List Event)) : List Event :=
  match r with
  | .ok p => p.2
  | .error _ => []

/-- Whether a run raised. -/
def isError {α : Type} (r : Except String α) : Bool :=
  match r with
  | .error _ => true
  | .ok _ => false

/-- A configuration with empty initial text and no bindings. -/
def cfgTriv : GinConfig := ⟨fun _ => false, []⟩

/-- Oracle proposing the empty parameter vector. -/
def noProposal : Nat → List GinVal := fun _ => []

/-- Constant-zero loss oracle. -/
def constLoss : List GinVal → ℚ := fun _ => 0

/-! ### Helper lemmas about the windowing body -/

lemma maskNan_length (ls : List Lbl) (ms : List Bool) :
    (maskNan ls ms).length = ms.length := by
  induction ls generalizing ms with
  | nil => simp [maskNan]
  | cons l ls ih =>
    cases ms with
    | nil => simp [maskNan]
    | cons m ms => simp [maskNan, ih]

lemma maskNan_replicate (n : Nat) (x : Lbl) (b : Bool) :
    maskNan (List.replicate n x) (List.replicate n b) =
      List.replicate n (if x.isNan then false else b) := by
  induction n with
  | zero => simp [maskNan]
  | succ n ih => simp [List.replicate_succ, maskNan, ih]

lemma maskNan_single_block (n d : Nat) (q : ℚ) :
    maskNan (List.replicate n Lbl.nan ++ [Lbl.val q] ++ List.replicate d (Lbl.val 0))
      (List.replicate n true ++ [true] ++ List.replicate d false)
    = List.replicate n false ++ [true] ++ List.replicate d false := by
  induction n with
  | zero =>
    simp only [List.replicate_zero, List.nil_append]
    have h := maskNan_replicate d (Lbl.val 0) false
    simp [maskNan, Lbl.isNan, h]
  | succ n ih =>
    simp [List.replicate_succ, maskNan, Lbl.isNan]
    simpa using ih

lemma le_foldr_max {l : List Nat} {x : Nat} (hx : x ∈ l) : x ≤ l.foldr max 0 := by
  induction l with
  | nil => cases hx
  | cons a t ih =>
    rcases List.mem_cons.mp hx with h | h
    · subst h; exact le_max_left _ _
    · exact le_trans (ih h) (le_max_right _ _)

lemma groupSize_le_maxGroupSize (dyn : List (String × List ℚ)) (g : String) :
    groupSize dyn g ≤ maxGroupSize dyn := by
  by_cases h : groupSize dyn g = 0
  · simp [h]
  · have hne : (dyn.filter (fun r => r.1 == g)) ≠ [] := by
      intro hnil
      exact h (by simp [groupSize, hnil])
    obtain ⟨r, hr⟩ := List.exists_mem_of_ne_nil _ hne
    have hrd : r ∈ dyn := List.mem_of_mem_filter hr
    have hg : r.1 = g := by
      have := List.of_mem_filter hr
      simpa using this
    have hmem : groupSize dyn r.1 ∈ dyn.map (fun r => groupSize dyn r.1) :=
      List.mem_map_of_mem _ hrd
    rw [← hg]
    exact le_foldr_max hmem

lemma pad_if_eq {α : Type} (maxlen T : Nat) (l : List α) (x : α) :
    (if 0 < (maxlen : ℤ) - (T : ℤ) then
        l ++ List.replicate ((maxlen : ℤ) - (T : ℤ)).toNat x else l) =
    l ++ List.replicate (maxlen - T) x := by
  split
  · rw [Int.toNat_sub]
  · next h =>
    have hz : maxlen - T = 0 := by omega
    simp [hz]

/-- Normal form of the windowing body: padding is appended unconditionally
with the truncated count `maxlen - T` (the skipped `if` branch corresponds to
an empty pad). -/
lemma buildSample_eq (maxlen : Nat) (W : List (List ℚ)) (L : List Lbl) :
    buildSample maxlen W L =
      { data := W ++ List.replicate (maxlen - W.length)
          (List.replicate ((W.head?.map List.length).getD 0) 0)
        labels := ((if L.length = 1 then List.replicate (W.length - 1) Lbl.nan ++ L else L)
            ++ List.replicate (maxlen - W.length) (Lbl.val 0)).map
            (fun l => if l.isNan then Lbl.val (-1) else l)
        mask := maskNan
          ((if L.length = 1 then List.replicate (W.length - 1) Lbl.nan ++ L else L)
            ++ List.replicate (maxlen - W.length) (Lbl.val 0))
          (List.replicate W.length true ++ List.replicate (maxlen - W.length) false) } := by
  simp only [buildSample]
  rw [pad_if_eq, pad_if_eq, pad_if_eq]

lemma buildSample_single (maxlen : Nat) (W : List (List ℚ)) (q : ℚ)
    (hT : 1 < W.length) (_hm : W.length ≤ maxlen) :
    (buildSample maxlen W [Lbl.val q]).labels =
      List.replicate (W.length - 1) (Lbl.val (-1)) ++ [Lbl.val q]
        ++ List.replicate (maxlen - W.length) (Lbl.val 0) ∧
    (buildSample maxlen W [Lbl.val q]).mask =
      List.replicate (W.length - 1) false ++ [true]
        ++ List.replicate (maxlen - W.length) false := by
  rw [buildSample_eq]
  constructor
  · simp [Lbl.isNan, List.map_append]
  · have hsingle : (if ([Lbl.val q] : List Lbl).length = 1 then
        List.replicate (W.length - 1) Lbl.nan ++ [Lbl.val q] else [Lbl.val q])
        = List.replicate (W.length - 1) Lbl.nan ++ [Lbl.val q] := by simp
    have h2 : (List.replicate W.length true : List Bool)
        = List.replicate (W.length - 1) true ++ [true] := by
      conv_lhs => rw [show W.length = (W.length - 1) + 1 by omega]
      exact List.replicate_succ' ..
    simp only [hsingle, h2]
    have := maskNan_single_block (W.length - 1) (maxlen - W.length) q
    simpa using this

lemma buildSample_shape (maxlen : Nat) (W : List (List ℚ)) (L : List Lbl) (F : Nat)
    (hT : 1 ≤ W.length) (hm : W.length ≤ maxlen)
    (hlab : L.length = 1 ∨ L.length = W.length)
    (hF : ∀ row ∈ W, row.length = F) :
    (buildSample maxlen W L).data.length = maxlen ∧
    (∀ row ∈ (buildSample maxlen W L).data, row.length = F) ∧
    (buildSample maxlen W L).labels.length = maxlen ∧
    (buildSample maxlen W L).mask.length = maxlen := by
  rw [buildSample_eq]
  have hd : W.length + (maxlen - W.length) = maxlen := by omega
  have hl1 : (if L.length = 1 then List.replicate (W.length - 1) Lbl.nan ++ L else L).length
      = W.length := by
    by_cases h1 : L.length = 1
    · rw [if_pos h1]
      simp [h1]
      omega
    · rw [if_neg h1]
      rcases hlab with h | h
      · exact absurd h h1
      · exact h
  refine ⟨?_, ?_, ?_, ?_⟩
  · simp [hd]
  · intro row hrow
    rcases List.mem_append.mp hrow with h | h
    · exact hF row h
    · have hrep := List.eq_of_mem_replicate h
      subst hrep
      obtain ⟨w0, t, rfl⟩ : ∃ w0 t, W = w0 :: t := by
        cases W with
        | nil => simp at hT
        | cons a t => exact ⟨a, t, rfl⟩
      simp
      exact hF w0 (List.mem_cons_self _ _)
  · simp [hl1, hd]
  · rw [maskNan_length]
    simp [hl1, hd]

/-! ### Claim theorems for the dataset -/

/-- C1: for a valid index whose entity has exactly one outcome label and
`T > 1` timesteps, `get_item` returns a label vector with `-1` at positions
`0..T-2` and the single label at `T-1`, and a mask that is `1` only at
position `T-1` among the first `T` positions, `0` at `0..T-2` and at every
padding position `≥ T`. -/
theorem getItem_single_label_alignment (d : RICUDataset) (idx : Nat)
    (stay_id : String) (q : ℚ)
    (hidx : d.static_df[idx]? = some stay_id)
    (hlab : (d.outc_df.filter (fun r => r.1 == stay_id)).map Prod.snd = [Lbl.val q])
    (hT : 1 < groupSize d.dyn_df stay_id)
    (hm : groupSize d.dyn_df stay_id ≤ d.maxlen) :
    ∃ s : Sample, d.getItem idx = some s ∧
      s.labels = List.replicate (groupSize d.dyn_df stay_id - 1) (Lbl.val (-1))
        ++ [Lbl.val q] ++ List.replicate (d.maxlen - groupSize d.dyn_df stay_id) (Lbl.val 0) ∧
      s.mask = List.replicate (groupSize d.dyn_df stay_id - 1) false
        ++ [true] ++ List.replicate (d.maxlen - groupSize d.dyn_df stay_id) false := by
  have hWlen : ((d.dyn_df.filter (fun r => r.1 == stay_id)).map Prod.snd).length
      = groupSize d.dyn_df stay_id := by
    simp [groupSize]
  have hitem : d.getItem idx = some (d.getItemFor stay_id) := by
    unfold RICUDataset.getItem
    rw [hidx]
  have hfor : d.getItemFor stay_id
      = buildSample d.maxlen ((d.dyn_df.filter (fun r => r.1 == stay_id)).map Prod.snd)
          [Lbl.val q] := by
    unfold RICUDataset.getItemFor
    rw [hlab]
  have hbody := buildSample_single d.maxlen
    ((d.dyn_df.filter (fun r => r.1 == stay_id)).map Prod.snd) q
    (by rw [hWlen]; exact hT) (by rw [hWlen]; exact hm)
  rw [hWlen] at hbody
  exact ⟨d.getItemFor stay_id, hitem, by rw [hfor]; exact hbody.1,
    by rw [hfor]; exact hbody.2⟩

/-- Demo dataset (two stays, maxlen 2) used by the dataset witnesses. -/
def demoDataset : RICUDataset :=
  ⟨["a", "b"], [("a", [1]), ("a", [2]), ("b", [3])],
   [("a", Lbl.val 5), ("b", Lbl.val 0)], 2, 3, 2⟩

/-- Witness for C1 at a concrete dataset. -/
theorem getItem_single_label_alignment_witness :
    ∃ s : Sample, demoDataset.getItem 0 = some s ∧
      s.labels = List.replicate (groupSize demoDataset.dyn_df "a" - 1) (Lbl.val (-1))
        ++ [Lbl.val 5]
        ++ List.replicate (demoDataset.maxlen - groupSize demoDataset.dyn_df "a") (Lbl.val 0) ∧
      s.mask = List.replicate (groupSize demoDataset.dyn_df "a" - 1) false
        ++ [true]
        ++ List.replicate (demoDataset.maxlen - groupSize demoDataset.dyn_df "a") false :=
  getItem_single_label_alignment demoDataset 0 "a" 5 (by decide) (by decide)
    (by decide) (by decide)

/-- C3: for every valid index, `get_item` returns data of shape
`[maxlen, F]`, labels of length `maxlen` and a mask of length `maxlen`;
since `maxlen` is the maximum per-entity timestep count of the table, the pad
length `maxlen - T` is nonnegative, so only padding occurs, never truncation.
The hypothesis `hmax` records that `maxlen` was computed at construction as
`maxGroupSize` (definitional for `RICUDataset.init`); `hlab` is the data-model
invariant of one label per entity or per entity-timestep. -/
theorem getItem_shape (d : RICUDataset) (idx : Nat) (stay_id : String) (F : Nat)
    (hmax : d.maxlen = maxGroupSize d.dyn_df)
    (hidx : d.static_df[idx]? = some stay_id)
    (hT : 1 ≤ groupSize d.dyn_df stay_id)
    (hlab : (d.outc_df.filter (fun r => r.1 == stay_id)).length = 1
      ∨ (d.outc_df.filter (fun r => r.1 == stay_id)).length = groupSize d.dyn_df stay_id)
    (hF : ∀ r ∈ d.dyn_df, r.2.length = F) :
    0 ≤ (d.maxlen : ℤ) - (groupSize d.dyn_df stay_id : ℤ) ∧
    ∃ s : Sample, d.getItem idx = some s ∧
      s.data.length = d.maxlen ∧ (∀ row ∈ s.data, row.length = F) ∧
      s.labels.length = d.maxlen ∧ s.mask.length = d.maxlen := by
  have hle : groupSize d.dyn_df stay_id ≤ d.maxlen := by
    rw [hmax]
    exact groupSize_le_maxGroupSize d.dyn_df stay_id
  have hWlen : ((d.dyn_df.filter (fun r => r.1 == stay_id)).map Prod.snd).length
      = groupSize d.dyn_df stay_id := by
    simp [groupSize]
  have hitem : d.getItem idx = some (d.getItemFor stay_id) := by
    unfold RICUDataset.getItem
    rw [hidx]
  have hF2 : ∀ row ∈ (d.dyn_df.filter (fun r => r.1 == stay_id)).map Prod.snd,
      row.length = F := by
    intro row hrow
    obtain ⟨r, hr, rfl⟩ := List.mem_map.mp hrow
    exact hF r (List.mem_of_mem_filter hr)
  have hlab2 : ((d.outc_df.filter (fun r => r.1 == stay_id)).map Prod.snd).length = 1
      ∨ ((d.outc_df.filter (fun r => r.1 == stay_id)).map Prod.snd).length
        = ((d.dyn_df.filter (fun r => r.1 == stay_id)).map Prod.snd).length := by
    rw [List.length_map, hWlen]
    exact hlab
  have hbody := buildSample_shape d.maxlen
    ((d.dyn_df.filter (fun r => r.1 == stay_id)).map Prod.snd)
    ((d.outc_df.filter (fun r => r.1 == stay_id)).map Prod.snd) F
    (by rw [hWlen]; exact hT) (by rw [hWlen]; exact hle) hlab2 hF2
  refine ⟨by omega, d.getItemFor stay_id, hitem, ?_⟩
  rw [RICUDataset.getItemFor]
  exact hbody

/-- Witness for C3 at a concrete dataset. -/
theorem getItem_shape_witness :
    0 ≤ (demoDataset.maxlen : ℤ) - (groupSize demoDataset.dyn_df "b" : ℤ) ∧
    ∃ s : Sample, demoDataset.getItem 1 = some s ∧
      s.data.length = demoDataset.maxlen ∧ (∀ row ∈ s.data, row.length = 1) ∧
      s.labels.length = demoDataset.maxlen ∧ s.mask.length = demoDataset.maxlen :=
  getItem_shape demoDataset 1 "b" 1 (by decide) (by decide) (by decide)
    (Or.inl (by decide)) (by decide)

/-- A stay with per-timestep labels containing a NaN whose timestep count
equals `maxlen`: the configuration in which neither concatenate of
`__getitem__` rebinds `labels`, so the `-1` write aliases the outcome table. -/
def aliasDataset : RICUDataset :=
  ⟨["a"], [("a", [1]), ("a", [2])], [("a", Lbl.nan), ("a", Lbl.val 1)], 1, 2, 2⟩

/-- C9 fails on the code: for a per-timestep-labeled stay with a NaN label
and `T = maxlen`, the first `get_item` call writes `-1` through the
`to_numpy` view into the outcome table (its NaN becomes `-1`), and a second
call with the same index then sees no NaN and returns mask `[1, 1]` instead
of the first call's `[0, 1]`: the dataset is mutated and repeated calls
disagree. -/
theorem getItemS_mutates_outcome :
    aliasDataset.outc_df = [("a", Lbl.nan), ("a", Lbl.val 1)] ∧
    (aliasDataset.getItemS 0).map (fun p => (p.2.outc_df, p.1.mask))
      = some ([("a", Lbl.val (-1)), ("a", Lbl.val 1)], [false, true]) ∧
    ((aliasDataset.getItemS 0).bind (fun p => p.2.getItemS 0)).map (fun p => p.1.mask)
      = some [true, true] := by
  refine ⟨by decide, by decide, by decide⟩

/-- C7: `get_data_and_labels` returns as many feature rows as labels: with
one label per entity (label count equals `num_stays`) the dynamic table is
collapsed to the last row of each group, groups kept in first-appearance
order; otherwise the full dynamic table is returned, whose row count equals
the label count by the per-timestep outcome invariant. -/
theorem get_data_and_labels_rowcount (d : RICUDataset)
    (hgroups : (dedupKeys (d.dyn_df.map Prod.fst)).length = d.num_stays)
    (hout : d.outc_df.length = d.num_stays ∨ d.outc_df.length = d.dyn_df.length) :
    (d.get_data_and_labels).1.length = (d.get_data_and_labels).2.length ∧
    (d.outc_df.length = d.num_stays →
      (d.get_data_and_labels).1 = (groupbyLast d.dyn_df).map Prod.snd) ∧
    (d.outc_df.length ≠ d.num_stays →
      (d.get_data_and_labels).1 = d.dyn_df.map Prod.snd) := by
  simp only [RICUDataset.get_data_and_labels]
  by_cases h : d.outc_df.length = d.num_stays
  · have hc : (d.outc_df.map Prod.snd).length = d.num_stays := by
      rw [List.length_map]; exact h
    rw [if_pos hc]
    refine ⟨?_, fun _ => rfl, fun hne => absurd h hne⟩
    simp [groupbyLast, hgroups, h]
  · have hc : ¬ (d.outc_df.map Prod.snd).length = d.num_stays := by
      rw [List.length_map]; exact h
    rw [if_neg hc]
    rcases hout with h2 | h2
    · exact absurd h2 h
    · exact ⟨by simp [h2], fun heq => absurd heq h, fun _ => rfl⟩

/-- Witness for C7: the demo dataset has one label per stay. -/
theorem get_data_and_labels_rowcount_witness :
    (demoDataset.get_data_and_labels).1.length = (demoDataset.get_data_and_labels).2.length ∧
    (demoDataset.outc_df.length = demoDataset.num_stays →
      (demoDataset.get_data_and_labels).1 = (groupbyLast demoDataset.dyn_df).map Prod.snd) ∧
    (demoDataset.outc_df.length ≠ demoDataset.num_stays →
      (demoDataset.get_data_and_labels).1 = demoDataset.dyn_df.map Prod.snd) :=
  get_data_and_labels_rowcount demoDataset (by decide) (Or.inl (by decide))

/-! ### Helper lemmas about the tuning embedding -/

lemma hasAssignment_bindParameter (cfg : GinConfig) (n m : String) (v : GinVal) :
    (bindParameter cfg n v).hasAssignment m = (cfg.hasAssignment m || (n == m)) := by
  simp [bindParameter, GinConfig.hasAssignment, List.any_append, Bool.or_assoc]

lemma mem_bindings_bindParameter {cfg : GinConfig} {n m : String} {v w : GinVal}
    (h : (m, w) ∈ (bindParameter cfg n v).bindings) (hne : m ≠ n) :
    (m, w) ∈ cfg.bindings := by
  simp only [bindParameter, List.mem_append, List.mem_singleton] at h
  rcases h with h | h
  · exact h
  · rw [Prod.mk.injEq] at h
    exact absurd h.1 hne

/-- Processing a candidate dict that never mentions `name` neither binds
`name` nor returns it. -/
lemma h2t_not_mentioned (c : String) (hp : List (String × GinVal)) (name : String)
    (h : name ∉ hp.map (fun kv => c ++ "." ++ kv.1)) : ∀ cfg : GinConfig,
    (∀ v, (name, v) ∈ (hyperparameters_to_tune cfg c hp).1.bindings →
      (name, v) ∈ cfg.bindings) ∧
    name ∉ (hyperparameters_to_tune cfg c hp).2.map Prod.fst := by
  induction hp with
  | nil =>
    intro cfg
    exact ⟨fun v hv => hv, by simp [hyperparameters_to_tune]⟩
  | cons kv rest ih =>
    intro cfg
    obtain ⟨param, values⟩ := kv
    have hne : name ≠ c ++ "." ++ param := by
      intro he
      exact h (by simp [he])
    have hrest : name ∉ rest.map (fun kv => c ++ "." ++ kv.1) := by
      intro hmem
      exact h (by simp [hmem])
    simp only [hyperparameters_to_tune]
    split
    · exact ih hrest cfg
    · split
      · refine ⟨fun v hv => ((ih hrest cfg).1 v hv), ?_⟩
        simp only [List.map_cons, List.mem_cons]
        rintro (he | hmem)
        · exact hne he
        · exact (ih hrest cfg).2 hmem
      · refine ⟨fun v hv => ?_, (ih hrest _).2⟩
        have := (ih hrest (bindParameter cfg (c ++ "." ++ param) values)).1 v hv
        exact mem_bindings_bindParameter this hne

/-- Bindings made before a `hyperparameters_to_tune` call survive it. -/
lemma h2t_bindings_mono (c : String) (hp : List (String × GinVal)) : ∀ cfg : GinConfig,
    ∀ b ∈ cfg.bindings, b ∈ (hyperparameters_to_tune cfg c hp).1.bindings := by
  induction hp with
  | nil =>
    intro cfg b hb
    exact hb
  | cons kv rest ih =>
    intro cfg b hb
    obtain ⟨param, values⟩ := kv
    simp only [hyperparameters_to_tune]
    split
    · exact ih cfg b hb
    · split
      · exact ih cfg b hb
      · exact ih _ b (by simp [bindParameter, hb])

/-- C5: each candidate hyperparameter is handled exactly one way: a name
already assigned in the configuration is skipped entirely (neither bound nor
returned); otherwise a non-list, non-tuple value is bound immediately and not
returned; otherwise the candidate appears in the returned search space under
its qualified name with its declared bounds. -/
theorem hyperparameters_to_tune_cases (cfg : GinConfig) (classToTune : String)
    (hp : List (String × GinVal)) (param : String) (values : GinVal)
    (hmem : (param, values) ∈ hp)
    (hnodup : (hp.map (fun kv => classToTune ++ "." ++ kv.1)).Nodup) :
    (cfg.hasAssignment (classToTune ++ "." ++ param) = true →
      (classToTune ++ "." ++ param)
          ∉ (hyperparameters_to_tune cfg classToTune hp).2.map Prod.fst ∧
      (∀ v, (classToTune ++ "." ++ param, v)
            ∈ (hyperparameters_to_tune cfg classToTune hp).1.bindings →
        (classToTune ++ "." ++ param, v) ∈ cfg.bindings)) ∧
    (cfg.hasAssignment (classToTune ++ "." ++ param) = false → values.isSeq = false →
      (classToTune ++ "." ++ param, values)
          ∈ (hyperparameters_to_tune cfg classToTune hp).1.bindings ∧
      (classToTune ++ "." ++ param)
          ∉ (hyperparameters_to_tune cfg classToTune hp).2.map Prod.fst) ∧
    (cfg.hasAssignment (classToTune ++ "." ++ param) = false → values.isSeq = true →
      (classToTune ++ "." ++ param, values) ∈ (hyperparameters_to_tune cfg classToTune hp).2 ∧
      (∀ v, (classToTune ++ "." ++ param, v)
            ∈ (hyperparameters_to_tune cfg classToTune hp).1.bindings →
        (classToTune ++ "." ++ param, v) ∈ cfg.bindings)) := by
  induction hp generalizing cfg with
  | nil => cases hmem
  | cons kv rest ih =>
    obtain ⟨p0, v0⟩ := kv
    simp only [List.map_cons] at hnodup
    obtain ⟨hnotin, hnodup2⟩ := List.nodup_cons.mp hnodup
    rcases List.mem_cons.mp hmem with hhead | htail
    · -- the candidate under scrutiny is the head
      rw [Prod.mk.injEq] at hhead
      obtain ⟨hp0, hv0⟩ := hhead
      subst hp0
      subst hv0
      refine ⟨fun htrue => ?_, fun hfalse hscalar => ?_, fun hfalse hseq => ?_⟩
      · simp only [hyperparameters_to_tune, htrue, if_true]
        exact ⟨(h2t_not_mentioned classToTune rest _ hnotin cfg).2,
          fun v hv => (h2t_not_mentioned classToTune rest _ hnotin cfg).1 v hv⟩
      · simp only [hyperparameters_to_tune, hfalse, Bool.false_eq_true, if_false, hscalar]
        constructor
        · exact h2t_bindings_mono classToTune rest _ _ (by simp [bindParameter])
        · exact (h2t_not_mentioned classToTune rest _ hnotin _).2
      · simp only [hyperparameters_to_tune, hfalse, Bool.false_eq_true, if_false, hseq,
          if_true]
        constructor
        · exact List.mem_cons_self _ _
        · exact fun v hv => (h2t_not_mentioned classToTune rest _ hnotin cfg).1 v hv
    · -- the candidate under scrutiny sits in the tail
      have hne : classToTune ++ "." ++ p0 ≠ classToTune ++ "." ++ param := by
        intro he
        have hmem2 : (classToTune ++ "." ++ param) ∈
            rest.map (fun kv => classToTune ++ "." ++ kv.1) :=
          List.mem_map_of_mem _ htail
        rw [he] at hnotin
        exact hnotin hmem2
      simp only [hyperparameters_to_tune]
      split
      · exact ih cfg htail hnodup2
      · split
        · -- head is tunable, prepended to the returned search space
          have hrec := ih cfg htail hnodup2
          refine ⟨fun htrue => ?_, fun hfalse hscalar => ?_, fun hfalse hseq => ?_⟩
          · refine ⟨?_, (hrec.1 htrue).2⟩
            simp only [List.map_cons, List.mem_cons]
            rintro (he | hmem2)
            · exact hne he.symm
            · exact (hrec.1 htrue).1 hmem2
          · refine ⟨(hrec.2.1 hfalse hscalar).1, ?_⟩
            simp only [List.map_cons, List.mem_cons]
            rintro (he | hmem2)
            · exact hne he.symm
            · exact (hrec.2.1 hfalse hscalar).2 hmem2
          · exact ⟨List.mem_cons_of_mem _ (hrec.2.2 hfalse hseq).1,
              (hrec.2.2 hfalse hseq).2⟩
        · -- head is a scalar, bound before the tail is processed
          have hrec := ih (bindParameter cfg (classToTune ++ "." ++ p0) v0) htail hnodup2
          have hassign : (bindParameter cfg (classToTune ++ "." ++ p0) v0).hasAssignment
              (classToTune ++ "." ++ param) = cfg.hasAssignment (classToTune ++ "." ++ param) := by
            rw [hasAssignment_bindParameter]
            have : (classToTune ++ "." ++ p0 == classToTune ++ "." ++ param) = false := by
              simp [hne]
            rw [this]
            simp
          refine ⟨fun htrue => ?_, fun hfalse hscalar => ?_, fun hfalse hseq => ?_⟩
          · rw [← hassign] at htrue
            refine ⟨(hrec.1 htrue).1, fun v hv => ?_⟩
            exact mem_bindings_bindParameter ((hrec.1 htrue).2 v hv) (fun he => hne he.symm)
          · rw [← hassign] at hfalse
            exact hrec.2.1 hfalse hscalar
          · rw [← hassign] at hfalse
            refine ⟨(hrec.2.2 hfalse hseq).1, fun v hv => ?_⟩
            exact mem_bindings_bindParameter ((hrec.2.2 hfalse hseq).2 v hv)
              (fun he => hne he.symm)

/-- The candidate dict of the spec's worked example:
`a` a scalar, `b` a tuple range, `c` a list of choices. -/
def demoHp : List (String × GinVal) :=
  [("a", GinVal.prim (Prim.int 5)),
   ("b", GinVal.tuplev [Prim.int 0, Prim.int 10]),
   ("c", GinVal.listv [Prim.int 1, Prim.int 2, Prim.int 3])]

/-- Witness for C5 at the candidate `b` of the worked example. -/
theorem hyperparameters_to_tune_cases_witness :
    (cfgTriv.hasAssignment ("M" ++ "." ++ "b") = true →
      ("M" ++ "." ++ "b") ∉ (hyperparameters_to_tune cfgTriv "M" demoHp).2.map Prod.fst ∧
      (∀ v, ("M" ++ "." ++ "b", v) ∈ (hyperparameters_to_tune cfgTriv "M" demoHp).1.bindings →
        ("M" ++ "." ++ "b", v) ∈ cfgTriv.bindings)) ∧
    (cfgTriv.hasAssignment ("M" ++ "." ++ "b") = false →
      (GinVal.tuplev [Prim.int 0, Prim.int 10]).isSeq = false →
      ("M" ++ "." ++ "b", GinVal.tuplev [Prim.int 0, Prim.int 10])
          ∈ (hyperparameters_to_tune cfgTriv "M" demoHp).1.bindings ∧
      ("M" ++ "." ++ "b") ∉ (hyperparameters_to_tune cfgTriv "M" demoHp).2.map Prod.fst) ∧
    (cfgTriv.hasAssignment ("M" ++ "." ++ "b") = false →
      (GinVal.tuplev [Prim.int 0, Prim.int 10]).isSeq = true →
      ("M" ++ "." ++ "b", GinVal.tuplev [Prim.int 0, Prim.int 10])
          ∈ (hyperparameters_to_tune cfgTriv "M" demoHp).2 ∧
      (∀ v, ("M" ++ "." ++ "b", v) ∈ (hyperparameters_to_tune cfgTriv "M" demoHp).1.bindings →
        ("M" ++ "." ++ "b", v) ∈ cfgTriv.bindings)) :=
  hyperparameters_to_tune_cases cfgTriv "M" demoHp "b"
    (GinVal.tuplev [Prim.int 0, Prim.int 10]) (by decide) (by decide)

/-- Predicate picking out training invocations in a trace. -/
def isTrainFolds : Event → Bool
  | .trainFolds => true
  | _ => false

lemma runEvaluations_countP (names : List String) (loss : List GinVal → ℚ)
    (propose : Nat → List GinVal) (l : List Nat) : ∀ cfg : GinConfig,
    ((runEvaluations cfg true names loss propose l).2).countP isTrainFolds = l.length := by
  induction l with
  | nil =>
    intro cfg
    simp [runEvaluations]
  | cons i rest ih =>
    intro cfg
    simp only [runEvaluations, bind_params_and_train, if_true]
    simp [List.countP_append, List.countP_cons, isTrainFolds, ih]

lemma afterCheckpoint_countP (cfg : GinConfig) (names : List String)
    (n_init n_calls : ℤ) (loss : List GinVal → ℚ) (propose : Nat → List GinVal)
    (resx : List GinVal) :
    ((afterCheckpoint cfg true names n_init n_calls loss propose resx).2).countP isTrainFolds
      = n_calls.toNat := by
  simp only [afterCheckpoint, gp_minimize, if_true]
  simp [List.countP_append, List.countP_cons, isTrainFolds, runEvaluations_countP]

lemma afterCheckpoint_false_trace (cfg : GinConfig) (names : List String)
    (n_init n_calls : ℤ) (loss : List GinVal → ℚ) (propose : Nat → List GinVal)
    (resx : List GinVal) :
    (afterCheckpoint cfg false names n_init n_calls loss propose resx).2
      = [Event.tempDirCreated, Event.tempDirRemoved, Event.optimizerStarted,
         Event.bindParams names (propose 0), Event.bindParams names resx] := by
  simp [afterCheckpoint, gp_minimize, runEvaluations, bind_params_and_train,
    List.range_succ, List.range_zero]

/-! ### Claim theorems for the tuning controller -/

/-- C2 counterexample: with tuning disabled and no tunable entries the
function does not return before the search machinery: the optimizer still
runs (as the single random draw of the disabled-tuning path), contradicting
an immediate return. -/
theorem choose_disabled_no_tunables_still_runs_optimizer :
    Event.optimizerStarted ∈ traceOf (choose_and_bind_hyperparameters cfgTriv false [] none
      3 20 constLoss noProposal []) := by decide

/-- C2 amended: the early exit fires when tuning is ENABLED and collection
yields no tunable entries: then the function returns immediately, with no
optimizer run and no training, the fixed bindings of collection in effect. -/
theorem choose_early_exit_requires_tuning_enabled (cfg0 : GinConfig)
    (scopes : List (String × List (String × GinVal)))
    (checkpoint : Option (Option Checkpoint)) (n_init n_calls : ℤ)
    (loss : List GinVal → ℚ) (propose : Nat → List GinVal) (resx : List GinVal)
    (hempty : (collectHyperparameters cfg0 scopes).2 = []) :
    choose_and_bind_hyperparameters cfg0 true scopes checkpoint n_init n_calls loss propose resx
      = .ok ((collectHyperparameters cfg0 scopes).1, []) := by
  simp only [choose_and_bind_hyperparameters, hempty]
  simp

/-- A scope whose only candidate is a fixed (non-tunable) hyperparameter. -/
def scopesFixed : List (String × List (String × GinVal)) :=
  [("M", [("a", GinVal.prim (Prim.int 5))])]

/-- Witness for the amended C2. -/
theorem choose_early_exit_requires_tuning_enabled_witness :
    choose_and_bind_hyperparameters cfgTriv true scopesFixed none 3 20
        constLoss noProposal []
      = .ok ((collectHyperparameters cfgTriv scopesFixed).1, []) :=
  choose_early_exit_requires_tuning_enabled cfgTriv scopesFixed none 3 20
    constLoss noProposal [] (by decide)

/-- C4: resuming from a checkpoint with `k` recorded evaluations reduces the
budget to `n_calls - k`; if that is positive, exactly that many further
training evaluations run; if not, the search is skipped entirely and the
recorded point of minimum loss (`x_iters[argmin(func_vals)]`) is bound
before returning. -/
theorem choose_resume_budget (cfg0 : GinConfig)
    (scopes : List (String × List (String × GinVal))) (ck : Checkpoint)
    (n_init n_calls : ℤ) (loss : List GinVal → ℚ)
    (propose : Nat → List GinVal) (resx : List GinVal)
    (htun : (collectHyperparameters cfg0 scopes).2 ≠ []) :
    ((n_calls - (ck.x_iters.length : ℤ) ≤ 0 →
      choose_and_bind_hyperparameters cfg0 true scopes (some (some ck)) n_init n_calls
          loss propose resx
        = .ok (bind_params (collectHyperparameters cfg0 scopes).1
            ((collectHyperparameters cfg0 scopes).2.map Prod.fst)
            (ck.x_iters.getD (argminIdx ck.func_vals) []),
          [Event.bindParams ((collectHyperparameters cfg0 scopes).2.map Prod.fst)
            (ck.x_iters.getD (argminIdx ck.func_vals) [])])) ∧
    (0 < n_calls - (ck.x_iters.length : ℤ) →
      ∃ p, choose_and_bind_hyperparameters cfg0 true scopes (some (some ck)) n_init n_calls
          loss propose resx = .ok p ∧
        p.2.countP isTrainFolds = (n_calls - (ck.x_iters.length : ℤ)).toNat)) := by
  have hguard : (true && ((collectHyperparameters cfg0 scopes).2.map Prod.snd).isEmpty)
      = false := by
    rw [Bool.true_and]
    cases hcol : (collectHyperparameters cfg0 scopes).2 with
    | nil => exact absurd hcol htun
    | cons a t => simp
  constructor
  · intro hle
    simp only [choose_and_bind_hyperparameters, hguard, Bool.false_eq_true, if_false]
    rw [if_pos hle]
  · intro hpos
    simp only [choose_and_bind_hyperparameters, hguard, Bool.false_eq_true, if_false]
    rw [if_neg (by omega)]
    exact ⟨_, rfl, afterCheckpoint_countP _ _ _ _ _ _ _⟩

/-- A scope with one tunable hyperparameter. -/
def demoScopes : List (String × List (String × GinVal)) :=
  [("Model", [("lr", GinVal.listv [Prim.int 1, Prim.int 2])])]

/-- A checkpoint with two recorded evaluations, the second one better. -/
def demoCheckpoint : Checkpoint :=
  ⟨[[GinVal.prim (Prim.int 3)], [GinVal.prim (Prim.int 7)]], [5, 2]⟩

/-- Witness for C4: two restored points against a budget of two, so the
search is skipped and the minimum-loss point is bound. -/
theorem choose_resume_budget_witness :
    choose_and_bind_hyperparameters cfgTriv true demoScopes (some (some demoCheckpoint))
        3 2 constLoss noProposal []
      = .ok (bind_params (collectHyperparameters cfgTriv demoScopes).1
          ((collectHyperparameters cfgTriv demoScopes).2.map Prod.fst)
          (demoCheckpoint.x_iters.getD (argminIdx demoCheckpoint.func_vals) []),
        [Event.bindParams ((collectHyperparameters cfgTriv demoScopes).2.map Prod.fst)
          (demoCheckpoint.x_iters.getD (argminIdx demoCheckpoint.func_vals) [])]) :=
  (choose_resume_budget cfgTriv demoScopes demoCheckpoint 3 2 constLoss noProposal []
    (by decide)).1 (by decide)

/-- Oracle proposing a single one-dimensional point. -/
def demoProposal : Nat → List GinVal := fun _ => [GinVal.prim (Prim.int 1)]

/-- C6: in the code the `tempfile.TemporaryDirectory` block ends right after
the definition of `bind_params_and_train`, so the temporary directory is
removed (trace position 1) before the optimizer makes its first training
invocation (trace position 4): training never runs while the scoped temporary
directory exists, contradicting the spec's scoping claim. -/
theorem tempdir_removed_before_training :
    traceOf (choose_and_bind_hyperparameters cfgTriv true demoScopes none 1 1
        constLoss demoProposal [GinVal.prim (Prim.int 1)])
      = [Event.tempDirCreated, Event.tempDirRemoved, Event.optimizerStarted,
         Event.bindParams ["Model.lr"] [GinVal.prim (Prim.int 1)], Event.trainFolds,
         Event.writeCheckpoint,
         Event.bindParams ["Model.lr"] [GinVal.prim (Prim.int 1)]] ∧
    (traceOf (choose_and_bind_hyperparameters cfgTriv true demoScopes none 1 1
        constLoss demoProposal [GinVal.prim (Prim.int 1)]))[1]?
      = some Event.tempDirRemoved ∧
    (traceOf (choose_and_bind_hyperparameters cfgTriv true demoScopes none 1 1
        constLoss demoProposal [GinVal.prim (Prim.int 1)]))[4]?
      = some Event.trainFolds := by
  refine ⟨by decide, by decide, by decide⟩

/-- C8 counterexample: a missing checkpoint file does NOT raise when the
no-tunables early exit fires first (tuning enabled, nothing tunable): the
function returns normally. -/
theorem choose_missing_checkpoint_not_always_raised :
    isError (choose_and_bind_hyperparameters cfgTriv true [] (some none) 3 20
      constLoss noProposal []) = false := by decide

/-- C8 amended: whenever the no-tunables early exit does not fire, a given
checkpoint path whose file is missing raises immediately, before any
optimizer invocation or parameter binding, with no fallback. -/
theorem choose_missing_checkpoint_raises (cfg0 : GinConfig) (do_tune : Bool)
    (scopes : List (String × List (String × GinVal))) (n_init n_calls : ℤ)
    (loss : List GinVal → ℚ) (propose : Nat → List GinVal) (resx : List GinVal)
    (hguard : (do_tune && ((collectHyperparameters cfg0 scopes).2.map Prod.snd).isEmpty)
      = false) :
    choose_and_bind_hyperparameters cfg0 do_tune scopes (some none) n_init n_calls
        loss propose resx
      = .error "No checkpoint found to restart from." := by
  simp only [choose_and_bind_hyperparameters, hguard, Bool.false_eq_true, if_false]

/-- Witness for the amended C8. -/
theorem choose_missing_checkpoint_raises_witness :
    choose_and_bind_hyperparameters cfgTriv false [] (some none) 3 20
        constLoss noProposal []
      = .error "No checkpoint found to restart from." :=
  choose_missing_checkpoint_raises cfgTriv false [] 3 20 constLoss noProposal []
    (by decide)

/-- C10: with tuning disabled no checkpoint is ever written and the fold
orchestrator is never invoked (the callback is installed only when tuning is
enabled), and the objective returns the constant 0 without training. -/
theorem choose_no_tune_no_writes (cfg0 : GinConfig)
    (scopes : List (String × List (String × GinVal)))
    (checkpoint : Option (Option Checkpoint)) (n_init n_calls : ℤ)
    (loss : List GinVal → ℚ) (propose : Nat → List GinVal) (resx : List GinVal)
    (c : GinConfig) (tr : List Event)
    (h : choose_and_bind_hyperparameters cfg0 false scopes checkpoint n_init n_calls
        loss propose resx = .ok (c, tr)) :
    Event.writeCheckpoint ∉ tr ∧ Event.trainFolds ∉ tr ∧
    ∀ cfg names p, (bind_params_and_train cfg false names loss p).2.1 = 0 := by
  have hobj : ∀ cfg names p, (bind_params_and_train cfg false names loss p).2.1 = 0 := by
    intro cfg names p
    simp [bind_params_and_train]
  rcases checkpoint with _ | opt
  · simp only [choose_and_bind_hyperparameters, Bool.false_and, Bool.false_eq_true,
      if_false] at h
    rw [Except.ok.injEq, Prod.ext_iff] at h
    obtain ⟨-, htr⟩ := h
    have htr2 : _ = tr := htr
    rw [← htr2, afterCheckpoint_false_trace]
    refine ⟨by simp, by simp, hobj⟩
  · rcases opt with _ | ck
    · simp only [choose_and_bind_hyperparameters, Bool.false_and, Bool.false_eq_true,
        if_false] at h
      cases h
    · simp only [choose_and_bind_hyperparameters, Bool.false_and, Bool.false_eq_true,
        if_false] at h
      split at h
      · rw [Except.ok.injEq, Prod.ext_iff] at h
        obtain ⟨-, htr⟩ := h
        have htr2 : _ = tr := htr
        rw [← htr2]
        refine ⟨by simp, by simp, hobj⟩
      · rw [Except.ok.injEq, Prod.ext_iff] at h
        obtain ⟨-, htr⟩ := h
        have htr2 : _ = tr := htr
        rw [← htr2, afterCheckpoint_false_trace]
        refine ⟨by simp, by simp, hobj⟩

/-- Witness for C10 at a concrete disabled-tuning run. -/
theorem choose_no_tune_no_writes_witness :
    Event.writeCheckpoint ∉ (afterCheckpoint (collectHyperparameters cfgTriv demoScopes).1
        false ((collectHyperparameters cfgTriv demoScopes).2.map Prod.fst)
        3 20 constLoss demoProposal []).2 ∧
    Event.trainFolds ∉ (afterCheckpoint (collectHyperparameters cfgTriv demoScopes).1
        false ((collectHyperparameters cfgTriv demoScopes).2.map Prod.fst)
        3 20 constLoss demoProposal []).2 ∧
    ∀ cfg names p, (bind_params_and_train cfg false names constLoss p).2.1 = 0 :=
  choose_no_tune_no_writes cfgTriv demoScopes none 3 20 constLoss demoProposal [] _ _ rfl

section SanityChecks

example :
    (RICUDataset.init
      ⟨[("a", [])], [("a", 0, [1]), ("a", 1, [2])], [("a", Lbl.val 1)]⟩
      false).maxlen = 2 := by decide

example :
    (RICUDataset.init
      ⟨[("a", []), ("b", [])],
       [("a", 0, [1]), ("a", 1, [2]), ("b", 0, [3])],
       [("a", Lbl.val 1), ("b", Lbl.val 0)]⟩ false).getItem 0 =
    some ⟨[[1], [2]], [Lbl.val (-1), Lbl.val 1], [false, true]⟩ := by decide

example :
    traceOf (choose_and_bind_hyperparameters cfgTriv false [] none 3 20
      constLoss noProposal []) =
    [Event.tempDirCreated, Event.tempDirRemoved, Event.optimizerStarted,
     Event.bindParams [] [], Event.bindParams [] []] := by decide

example :
    traceOf (choose_and_bind_hyperparameters cfgTriv true
      [("Model", [("lr", GinVal.listv [Prim.int 1, Prim.int 2])])] none 1 1
      constLoss (fun _ => [GinVal.prim (Prim.int 1)]) [GinVal.prim (Prim.int 1)]) =
    [Event.tempDirCreated, Event.tempDirRemoved, Event.optimizerStarted,
     Event.bindParams ["Model.lr"] [GinVal.prim (Prim.int 1)], Event.trainFolds,
     Event.writeCheckpoint,
     Event.bindParams ["Model.lr"] [GinVal.prim (Prim.int 1)]] := by decide

example :
    isError (choose_and_bind_hyperparameters cfgTriv true [] (some none) 3 20
      constLoss noProposal []) = false := by decide

example :
    (hyperparameters_to_tune cfgTriv "M"
      [("a", GinVal.prim (Prim.int 5)),
       ("b", GinVal.tuplev [Prim.int 0, Prim.int 10]),
       ("c", GinVal.listv [Prim.int 1, Prim.int 2, Prim.int 3])]).2 =
    [("M.b", GinVal.tuplev [Prim.int 0, Prim.int 10]),
     ("M.c", GinVal.listv [Prim.int 1, Prim.int 2, Prim.int 3])] := by decide

example :
    (hyperparameters_to_tune cfgTriv "M"
      [("a", GinVal.prim (Prim.int 5)),
       ("b", GinVal.tuplev [Prim.int 0, Prim.int 10])]).1.bindings =
    [("M.a", GinVal.prim (Prim.int 5))] := by decide

end SanityChecks
